import Mathlib

/-!
# Verification of the Research Literature Navigator core (`simple_app.py`)

This file gives a shallow embedding, in Lean 4, of the pure core of the
repository's `SimpleResearchNavigator` class and of the `/query` route
(`src/simple_app.py`), and proves or refutes the frozen specification
claims about it.

Modelling conventions:

* Python strings are modelled as lists of characters (`Str := List Char`),
  so that every string operation is a structural recursion the kernel can
  evaluate on concrete inputs.  `str.split()` (split on whitespace runs,
  dropping empty pieces) is `pwords`; `str.lower()` is `lowerStr`
  (character-wise `Char.toLower`, faithful for the ASCII texts involved);
  `str.strip()` is `strip`; `" ".join(l)` is `joinWords`.
* Python `set(...)` of words is a `Finset Str`; `len(a & b)` and
  `len(a | b)` become `Finset.card` of `∩` / `∪`.
* Python floats are modelled exactly as rationals (`ℚ`); the
  `f"{x:.2f}"`/`f"{x:.3f}"` presentation-layer formatting of numbers into
  strings is not modelled — claims are about the numeric values.
* `list.sort(key=..., reverse=True)` (a stable descending sort) is
  modelled by the stable insertion sort `sortDesc`.
* The Gemini generation backend (`self.model` / `generate_content`) is an
  external effect; it is modelled as an `Option GeminiModel` where
  `generate_content` either raises (`Except.error`) or returns text
  (`Except.ok`), exactly covering the `try/except` branches of
  `generate_answer`.
* The mutable `self.documents` list is threaded explicitly as a
  `List Doc` state.
-/

/-- A Python string, modelled as its list of characters. -/
abbrev Str := List Char

/-- Convert a Lean string literal to the `Str` model. -/
def str (s : String) : Str := s.data

/-- Helper loop for `pwords`: accumulate the current word (reversed). -/
def pwordsAux : Str → Str → List Str
  | [], cur => if cur = [] then [] else [cur.reverse]
  | c :: rest, cur =>
      if c.isWhitespace then
        if cur = [] then pwordsAux rest []
        else cur.reverse :: pwordsAux rest []
      else
        pwordsAux rest (c :: cur)

/-- `content.split()` in Python: split on maximal whitespace runs, never
producing an empty word. -/
def pwords (s : Str) : List Str := pwordsAux s []

/-- `s.lower()` in Python (character-wise; faithful on ASCII). -/
def lowerStr (s : Str) : Str := s.map Char.toLower

/-- Drop leading whitespace. -/
def stripLeft : Str → Str
  | [] => []
  | c :: rest => if c.isWhitespace then stripLeft rest else c :: rest

/-- `s.strip()` in Python: drop leading and trailing whitespace. -/
def strip (s : Str) : Str := ((stripLeft ((stripLeft s).reverse)).reverse)

/-- `" ".join(l)` in Python. -/
def joinWords (l : List Str) : Str := List.intercalate [' '] l

/-- `set(s.lower().split())` in Python: the set of lower-cased words of `s`. -/
def wordSet (s : Str) : Finset Str :=
  (pwords (lowerStr s)).toFinset

/-- A stored document, as built by `SimpleResearchNavigator.add_document`:
`{"filename": ..., "title": ..., "content": ..., "chunks": ...}`. -/
structure Doc where
  filename : Str
  title : Str
  content : Str
  chunks : List Str
deriving DecidableEq, Repr

/-- One entry of the `results` list built by
`SimpleResearchNavigator.search_documents`:
`{"title": ..., "content": chunk, "similarity": ...}`. -/
structure SearchResult where
  title : Str
  content : Str
  similarity : ℚ
deriving DecidableEq, Repr

/-- The word-level chunking loop of `SimpleResearchNavigator.create_chunks`.
In the Python source `current_chunk` is a list of words and
`chunks.append(" ".join(current_chunk))` joins it only at flush time, so we
keep the loop on word lists (`chunkGroups`) and join afterwards.
`current_size` accumulates `len(word) + 1` per word and a chunk is flushed
as soon as `current_size >= chunk_size`. -/
def chunkGroups (chunk_size : Nat) : List Str → List Str → Nat → List (List Str)
  | [], current_chunk, _ =>
      if current_chunk = [] then [] else [current_chunk]
  | word :: ws, current_chunk, current_size =>
      let current_chunk' := current_chunk ++ [word]
      let current_size' := current_size + word.length + 1
      if chunk_size ≤ current_size' then
        current_chunk' :: chunkGroups chunk_size ws [] 0
      else
        chunkGroups chunk_size ws current_chunk' current_size'

/-- `SimpleResearchNavigator.create_chunks(content, chunk_size=800)`. -/
def create_chunks (content : Str) (chunk_size : Nat := 800) : List Str :=
  (chunkGroups chunk_size (pwords content) [] 0).map joinWords

/-- `SimpleResearchNavigator.add_document(filename, title, content)`:
appends the new document record to `self.documents` and returns the pair
(new document list, the appended record). -/
def add_document (documents : List Doc) (filename title content : Str) :
    List Doc × Doc :=
  let doc : Doc := ⟨filename, title, content, create_chunks content⟩
  (documents ++ [doc], doc)

/-- `sum(len(doc["chunks"]) for doc in documents)`: the store's record
count, as reported by the `/stats` route (`total_chunks`). -/
def totalChunks (documents : List Doc) : Nat :=
  (documents.map (fun doc => doc.chunks.length)).sum

/-- The candidate `results` list built by the document/chunk loop of
`SimpleResearchNavigator.search_documents`, before sorting/truncation:
a chunk contributes iff its word overlap with the query is positive, with
similarity `overlap / |query_words ∪ chunk_words|` (Jaccard). -/
def candidates (documents : List Doc) (query : Str) : List SearchResult :=
  let query_words := wordSet query
  documents.flatMap (fun doc =>
    doc.chunks.filterMap (fun chunk =>
      let chunk_words := wordSet chunk
      let overlap := (query_words ∩ chunk_words).card
      if 0 < overlap then
        some ⟨doc.title, chunk,
              (overlap : ℚ) / ((query_words ∪ chunk_words).card : ℚ)⟩
      else
        none))

/-- One insertion step of a stable descending insertion sort: `x` is placed
before the first element whose similarity is `≤` its own, so elements with
strictly larger similarity stay ahead of it and ties keep their original
relative order — the observable behaviour of Python's stable
`list.sort(key=lambda x: x["similarity"], reverse=True)`. -/
def insertDesc (x : SearchResult) : List SearchResult → List SearchResult
  | [] => [x]
  | y :: ys =>
      if y.similarity ≤ x.similarity then x :: y :: ys
      else y :: insertDesc x ys

/-- Stable descending sort by similarity (model of
`results.sort(key=lambda x: x["similarity"], reverse=True)`). -/
def sortDesc (l : List SearchResult) : List SearchResult :=
  l.foldr insertDesc []

/-- `SimpleResearchNavigator.search_documents(query, top_k=3)`. -/
def search_documents (documents : List Doc) (query : Str) (top_k : Nat := 3) :
    List SearchResult :=
  (sortDesc (candidates documents query)).take top_k

/-- The Gemini generation backend used by `generate_answer`.  A call either
raises a Python exception (`Except.error`, carrying `str(e)`) or returns the
response text (`Except.ok`); `self.model` itself may be `None`, hence the
`Option` at every use site. -/
structure GeminiModel where
  generate_content : Str → Except Str Str

/-- The `context` block built inside `generate_answer`:
`"\n\n".join(f"Source: {title}\nContent: {content}" for result in results)`. -/
def build_context (context_results : List SearchResult) : Str :=
  List.intercalate (str "\n\n")
    (context_results.map (fun result =>
      str "Source: " ++ result.title ++ str "\nContent: " ++ result.content))

/-- The f-string prompt built inside `generate_answer`. -/
def build_prompt (question context : Str) : Str :=
  str "You are a research assistant. Based on the research papers provided, answer the question clearly and accurately.\n\nQuestion: "
    ++ question
    ++ str "\n\nResearch Papers Context:\n"
    ++ context
    ++ str "\n\nInstructions:\n1. Provide a clear, evidence-based answer\n2. Reference specific papers when making claims\n3. If information is insufficient, state what's missing\n4. Use academic language\n\nAnswer:"

/-- `SimpleResearchNavigator.generate_answer(question, context_results)`:
`None` model short-circuits; an exception from `generate_content` is caught
and surfaced as `"Error generating answer: " + str(e)`; an empty response
text becomes `"No response generated."`. -/
def generate_answer (model : Option GeminiModel) (question : Str)
    (context_results : List SearchResult) : Str :=
  match model with
  | none => str "Gemini model not available. Please check API key."
  | some m =>
      let context := build_context context_results
      let prompt := build_prompt question context
      match m.generate_content prompt with
      | .error e => str "Error generating answer: " ++ e
      | .ok text => if text = [] then str "No response generated." else text

/-- One entry of the `sources` list of the `/query` JSON response.  In the
Python source the similarity is formatted as `f"{...:.3f}"`; the numeric
value is modelled. -/
structure SourceEntry where
  title : Str
  sectionName : Str
  similarity : ℚ
  content : Str
deriving DecidableEq

/-- The response of the `/query` route: either an HTTP error response
(`jsonify({'error': ...}), code`) or the JSON answer payload
`{'answer': ..., 'sources': ..., 'confidence': ...}` (confidence is
formatted `f"{...:.2f}"` in the source; the numeric value is modelled,
with the literal `'0.00'` of the no-results branch modelled as `0`). -/
inductive QueryResponse where
  | httpError (msg : Str) (code : Nat)
  | answerJson (answer : Str) (sources : List SourceEntry) (confidence : ℚ)
deriving DecidableEq

/-- The confidence computation of the `/query` route:
`avg_similarity = sum(r['similarity']) / len(results)` and
`confidence = min(avg_similarity * 1.5, 1.0)` (`1.5` is exact in binary
floating point, so `3/2 : ℚ` is a faithful model). -/
def confidence_calc (search_results : List SearchResult) : ℚ :=
  let avg_similarity :=
    (search_results.map SearchResult.similarity).sum / (search_results.length : ℚ)
  min (avg_similarity * (3/2)) 1

/-- The `/query` route handler `query_literature` of `simple_app.py`. -/
def query_literature (model : Option GeminiModel) (documents : List Doc)
    (raw_question : Str) : QueryResponse :=
  let question := strip raw_question
  if question = [] then
    .httpError (str "Please provide a question") 400
  else
    let search_results := search_documents documents question 5
    if search_results = [] then
      .answerJson
        (str "No relevant information found. Please upload some PDF documents first.")
        [] 0
    else
      let answer := generate_answer model question search_results
      let sources := search_results.map (fun result =>
        (⟨result.title, str "Content", result.similarity,
          result.content.take 200 ++ str "..."⟩ : SourceEntry))
      .answerJson answer sources (confidence_calc search_results)

/-- Project the confidence field out of a `/query` response. -/
def QueryResponse.confidenceOf : QueryResponse → Option ℚ
  | .answerJson _ _ c => some c
  | .httpError _ _ => none

/-- Project the answer field out of a `/query` response. -/
def QueryResponse.answerOf : QueryResponse → Option Str
  | .answerJson a _ _ => some a
  | .httpError _ _ => none

/-- A generation backend whose call always raises, with message `e`. -/
def failingModel (e : Str) : GeminiModel := ⟨fun _ => .error e⟩

/-- The "weight" a word list contributes to `current_size` in
`create_chunks`: each word adds `len(word) + 1`. -/
def wWeight (l : List Str) : Nat := (l.map (fun w => w.length + 1)).sum

/-- The length of the longest word of a word list. -/
def maxWordLen (l : List Str) : Nat := (l.map List.length).foldr max 0

/-- The ordering property asserted by the specification for search output:
non-increasing similarity, with exact ties broken by ascending document id
(the documents involved in the refutation each contribute a single chunk,
at position 0, so the spec's prior position tie-break is neutral there). -/
def claimedTieOrder (l : List SearchResult) : Prop :=
  l.Pairwise (fun a b =>
    b.similarity < a.similarity ∨
    (a.similarity = b.similarity ∧ a.title ≤ b.title))

/-- A one-document store: `add_document` applied to `"hello world"`. -/
def docs1 : List Doc :=
  [⟨str "a.pdf", str "A", str "hello world", [str "hello world"]⟩]

/-- Two single-chunk documents inserted in the order `B`, `A`, whose
chunks have the same similarity `1/2` to the query `"x"`. -/
def docsC7 : List Doc :=
  [⟨str "b.pdf", str "B", str "x p", [str "x p"]⟩,
   ⟨str "a.pdf", str "A", str "x q", [str "x q"]⟩]

-- Concrete sanity checks of the embedding (small reachable states).

example : pwords (str "hello  world ") = [str "hello", str "world"] := by decide

example : create_chunks (str "aaaa bb") 3 = [str "aaaa", str "bb"] := by decide

unseal Rat.mul Rat.inv in
example :
    candidates [⟨str "a.pdf", str "A", str "hello world", [str "hello world"]⟩]
        (str "hello") =
      [⟨str "A", str "hello world", 1/2⟩] := by decide

unseal Rat.mul Rat.inv Rat.add in
example :
    query_literature (some (failingModel (str "boom")))
        [⟨str "a.pdf", str "A", str "hello world", [str "hello world"]⟩]
        (str "hello") =
      .answerJson (str "Error generating answer: boom")
        [⟨str "A", str "Content", 1/2, str "hello world..."⟩] (3/4) := by decide

/-! ## Lemmas about the stable descending sort -/

theorem mem_insertDesc {x y : SearchResult} {l : List SearchResult} :
    y ∈ insertDesc x l ↔ y = x ∨ y ∈ l := by
  induction l with
  | nil => simp [insertDesc]
  | cons a t ih =>
      simp only [insertDesc]
      split
      · simp
      · simp only [List.mem_cons, ih]
        tauto

theorem length_insertDesc (x : SearchResult) (l : List SearchResult) :
    (insertDesc x l).length = l.length + 1 := by
  induction l with
  | nil => rfl
  | cons a t ih =>
      simp only [insertDesc]
      split
      · simp
      · simp [ih]

theorem sortDesc_cons (a : SearchResult) (t : List SearchResult) :
    sortDesc (a :: t) = insertDesc a (sortDesc t) := rfl

theorem mem_sortDesc {y : SearchResult} {l : List SearchResult} :
    y ∈ sortDesc l ↔ y ∈ l := by
  induction l with
  | nil => simp [sortDesc]
  | cons a t ih =>
      rw [sortDesc_cons, mem_insertDesc]
      simp [ih]

theorem length_sortDesc (l : List SearchResult) :
    (sortDesc l).length = l.length := by
  induction l with
  | nil => rfl
  | cons a t ih =>
      rw [sortDesc_cons, length_insertDesc, ih, List.length_cons]

theorem pairwise_insertDesc {x : SearchResult} {l : List SearchResult}
    (h : l.Pairwise (fun a b => b.similarity ≤ a.similarity)) :
    (insertDesc x l).Pairwise (fun a b => b.similarity ≤ a.similarity) := by
  induction l with
  | nil => simp [insertDesc]
  | cons a t ih =>
      rw [List.pairwise_cons] at h
      obtain ⟨ha, ht⟩ := h
      simp only [insertDesc]
      split
      · rename_i hle
        refine List.Pairwise.cons ?_ (List.Pairwise.cons ha ht)
        intro b hb
        rcases List.mem_cons.mp hb with rfl | hb
        · exact hle
        · exact le_trans (ha b hb) hle
      · rename_i hgt
        push_neg at hgt
        refine List.Pairwise.cons ?_ (ih ht)
        intro b hb
        rcases mem_insertDesc.mp hb with rfl | hb
        · exact le_of_lt hgt
        · exact ha b hb

theorem pairwise_sortDesc (l : List SearchResult) :
    (sortDesc l).Pairwise (fun a b => b.similarity ≤ a.similarity) := by
  induction l with
  | nil => exact List.Pairwise.nil
  | cons a t ih => exact pairwise_insertDesc ih

theorem filter_insertDesc (x : SearchResult) (l : List SearchResult) (q : ℚ) :
    (insertDesc x l).filter (fun r => decide (r.similarity = q)) =
      ((x :: l).filter (fun r => decide (r.similarity = q))) := by
  induction l with
  | nil => rfl
  | cons a t ih =>
      simp only [insertDesc]
      split
      · rfl
      · rename_i hgt
        push_neg at hgt
        rw [List.filter_cons, List.filter_cons, ih, List.filter_cons]
        by_cases hx : x.similarity = q
        · have ha : a.similarity ≠ q := by
            rw [← hx]; exact ne_of_gt hgt
          simp [hx, ha]
        · simp [hx, List.filter_cons]

theorem filter_sortDesc (l : List SearchResult) (q : ℚ) :
    (sortDesc l).filter (fun r => decide (r.similarity = q)) =
      l.filter (fun r => decide (r.similarity = q)) := by
  induction l with
  | nil => rfl
  | cons a t ih =>
      rw [sortDesc_cons, filter_insertDesc, List.filter_cons, List.filter_cons, ih]

/-! ## Lemmas about the candidate list -/

theorem mem_candidates_similarity {documents : List Doc} {query : Str}
    {r : SearchResult} (h : r ∈ candidates documents query) :
    0 < r.similarity ∧ r.similarity ≤ 1 := by
  simp only [candidates, List.mem_flatMap, List.mem_filterMap] at h
  obtain ⟨doc, _, chunk, _, hr⟩ := h
  split_ifs at hr with hpos
  · obtain rfl := Option.some_injective _ hr
    have hsub : (wordSet query ∩ wordSet chunk).card ≤
        (wordSet query ∪ wordSet chunk).card :=
      Finset.card_le_card Finset.inter_subset_union
    have hupos : 0 < (wordSet query ∪ wordSet chunk).card :=
      lt_of_lt_of_le hpos hsub
    constructor
    · apply div_pos
      · exact_mod_cast hpos
      · exact_mod_cast hupos
    · rw [div_le_one (by exact_mod_cast hupos)]
      exact_mod_cast hsub

theorem mem_search_similarity {documents : List Doc} {query : Str}
    {top_k : Nat} {r : SearchResult}
    (h : r ∈ search_documents documents query top_k) :
    0 < r.similarity ∧ r.similarity ≤ 1 := by
  have hc : r ∈ candidates documents query := by
    have := List.mem_of_mem_take h
    exact mem_sortDesc.mp this
  exact mem_candidates_similarity hc

/-! ## Lemmas about the chunking loop -/

theorem chunkGroups_flatten (chunk_size : Nat) :
    ∀ (ws : List Str) (cur : List Str) (sz : Nat),
      (chunkGroups chunk_size ws cur sz).flatten = cur ++ ws := by
  intro ws
  induction ws with
  | nil =>
      intro cur sz
      by_cases h : cur = [] <;> simp [chunkGroups, h]
  | cons w t ih =>
      intro cur sz
      simp only [chunkGroups]
      split
      · simp [ih]
      · simp [ih]

theorem chunkGroups_ne_nil (chunk_size : Nat) :
    ∀ (ws : List Str) (cur : List Str) (sz : Nat),
      ∀ g ∈ chunkGroups chunk_size ws cur sz, g ≠ [] := by
  intro ws
  induction ws with
  | nil =>
      intro cur sz g hg
      by_cases h : cur = []
      · simp [chunkGroups, h] at hg
      · simp only [chunkGroups, if_neg h, List.mem_singleton] at hg
        subst hg; exact h
  | cons w t ih =>
      intro cur sz g hg
      simp only [chunkGroups] at hg
      split at hg
      · rcases List.mem_cons.mp hg with rfl | hg
        · simp
        · exact ih [] 0 g hg
      · exact ih (cur ++ [w]) (sz + w.length + 1) g hg

theorem mem_pwordsAux_ne_nil :
    ∀ (s : Str) (cur : Str), ∀ w ∈ pwordsAux s cur, w ≠ [] := by
  intro s
  induction s with
  | nil =>
      intro cur w hw
      by_cases hcur : cur = []
      · simp [pwordsAux, hcur] at hw
      · simp only [pwordsAux, if_neg hcur, List.mem_singleton] at hw
        subst hw
        simpa using hcur
  | cons c rest ih =>
      intro cur w hw
      simp only [pwordsAux] at hw
      split at hw
      · split at hw
        · exact ih [] w hw
        · rcases List.mem_cons.mp hw with rfl | hw
          · rename_i hcur
            simpa using hcur
          · exact ih [] w hw
      · exact ih _ w hw

theorem mem_pwords_ne_nil {s : Str} {w : Str} (hw : w ∈ pwords s) : w ≠ [] :=
  mem_pwordsAux_ne_nil s [] w hw

/-! ## Lemmas about `" ".join` and word weights -/

theorem joinWords_singleton (a : Str) : joinWords [a] = a := by
  simp [joinWords, List.intercalate]

theorem joinWords_cons_cons (a b : Str) (t : List Str) :
    joinWords (a :: b :: t) = a ++ ' ' :: joinWords (b :: t) := by
  simp [joinWords, List.intercalate, List.intersperse_cons_cons]

theorem wWeight_append (l₁ l₂ : List Str) :
    wWeight (l₁ ++ l₂) = wWeight l₁ + wWeight l₂ := by
  simp [wWeight]

theorem joinWords_length (g : List Str) (hg : g ≠ []) :
    (joinWords g).length + 1 = wWeight g := by
  induction g with
  | nil => cases hg rfl
  | cons a t ih =>
      cases t with
      | nil => simp [joinWords_singleton, wWeight]
      | cons b t' =>
          rw [joinWords_cons_cons]
          have h := ih (by simp)
          simp only [wWeight, List.map_cons, List.sum_cons] at h ⊢
          simp only [List.length_append, List.length_cons]
          omega

theorem joinWords_append (l₁ l₂ : List Str) (h₁ : l₁ ≠ []) (h₂ : l₂ ≠ []) :
    joinWords (l₁ ++ l₂) = joinWords l₁ ++ ' ' :: joinWords l₂ := by
  induction l₁ with
  | nil => cases h₁ rfl
  | cons a t ih =>
      cases t with
      | nil =>
          cases l₂ with
          | nil => cases h₂ rfl
          | cons b u =>
              simp only [List.singleton_append, joinWords_cons_cons,
                joinWords_singleton]
      | cons b t' =>
          simp only [List.cons_append]
          rw [joinWords_cons_cons, joinWords_cons_cons]
          have h := ih (by simp)
          simp only [List.cons_append] at h
          rw [h]
          simp

theorem joinWords_map_flatten (gs : List (List Str))
    (h : ∀ g ∈ gs, g ≠ []) :
    joinWords (gs.map joinWords) = joinWords gs.flatten := by
  induction gs with
  | nil => rfl
  | cons g t ih =>
      cases t with
      | nil => simp [joinWords_singleton]
      | cons g' t' =>
          have hg : g ≠ [] := h g (List.mem_cons_self g _)
          have hg' : g' ≠ [] := h g' (by simp)
          have hflat : (g' :: t').flatten ≠ [] := by
            rw [List.flatten_cons]
            intro hc
            rcases List.append_eq_nil.mp hc with ⟨hc', _⟩
            exact hg' hc'
          rw [List.map_cons, List.map_cons, joinWords_cons_cons,
            ← List.map_cons, ih (fun x hx => h x (List.mem_cons_of_mem _ hx))]
          conv_rhs => rw [List.flatten_cons]
          rw [joinWords_append g _ hg hflat]

theorem le_maxWordLen {w : Str} {l : List Str} (hw : w ∈ l) :
    w.length ≤ maxWordLen l := by
  induction l with
  | nil => cases hw
  | cons a t ih =>
      rcases List.mem_cons.mp hw with rfl | hw
      · simp [maxWordLen, le_max_iff]
      · simp only [maxWordLen, List.map_cons, List.foldr_cons]
        exact le_trans (ih hw) (le_max_right _ _)

theorem maxWordLen_append (l₁ l₂ : List Str) :
    maxWordLen (l₁ ++ l₂) = max (maxWordLen l₁) (maxWordLen l₂) := by
  induction l₁ with
  | nil => simp [maxWordLen]
  | cons a t ih =>
      simp only [maxWordLen, List.map_cons, List.map_append, List.foldr_cons,
        List.foldr_append] at ih ⊢
      rw [ih]
      exact (max_assoc _ _ _).symm

/-! ## The chunk length bound -/

theorem chunkGroups_joinWords_length_le (n : Nat) :
    ∀ (ws cur : List Str) (sz : Nat), sz = wWeight cur → (cur ≠ [] → sz < n) →
      ∀ g ∈ chunkGroups n ws cur sz,
        (joinWords g).length ≤ (n - 1) + maxWordLen (cur ++ ws) := by
  intro ws
  induction ws with
  | nil =>
      intro cur sz hsz hlt g hg
      by_cases hcur : cur = []
      · simp [chunkGroups, hcur] at hg
      · simp only [chunkGroups, if_neg hcur, List.mem_singleton] at hg
        subst hg
        have hj := joinWords_length g hcur
        have := hlt hcur
        omega
  | cons w t ih =>
      intro cur sz hsz hlt g hg
      simp only [chunkGroups] at hg
      split at hg
      · rename_i hflush
        rcases List.mem_cons.mp hg with rfl | hg
        · -- the flushed group `cur ++ [w]`
          have hne : cur ++ [w] ≠ [] := by simp
          have hj := joinWords_length _ hne
          have hW : wWeight (cur ++ [w]) = sz + w.length + 1 := by
            rw [wWeight_append, ← hsz]
            simp only [wWeight, List.map_cons, List.map_nil, List.sum_cons,
              List.sum_nil]
            omega
          have hw : w.length ≤ maxWordLen (cur ++ w :: t) := by
            apply le_maxWordLen
            simp
          by_cases hcur : cur = []
          · have h0 : sz = 0 := by rw [hsz, hcur]; rfl
            omega
          · have := hlt hcur
            omega
        · -- groups produced after the flush, from state `[]`, `0`
          have := ih [] 0 rfl (by simp) g hg
          simp only [List.nil_append] at this
          have hmono : maxWordLen t ≤ maxWordLen (cur ++ w :: t) := by
            rw [maxWordLen_append]
            refine le_trans ?_ (le_max_right _ _)
            simp only [maxWordLen, List.map_cons, List.foldr_cons]
            exact le_max_right _ _
          omega
      · rename_i hnoflush
        push_neg at hnoflush
        have := ih (cur ++ [w]) (sz + w.length + 1)
          (by
            rw [wWeight_append, ← hsz]
            simp only [wWeight, List.map_cons, List.map_nil, List.sum_cons,
              List.sum_nil]
            omega)
          (fun _ => hnoflush) g hg
        rwa [List.append_assoc, List.singleton_append] at this

theorem create_chunks_length_le (content : Str) (n : Nat) :
    ∀ chunk ∈ create_chunks content n,
      chunk.length ≤ (n - 1) + maxWordLen (pwords content) := by
  intro chunk hc
  simp only [create_chunks, List.mem_map] at hc
  obtain ⟨g, hg, rfl⟩ := hc
  have := chunkGroups_joinWords_length_le n (pwords content) [] 0 rfl
    (by simp) g hg
  simpa using this

theorem create_chunks_ne_nil (content : Str) (n : Nat) :
    ∀ chunk ∈ create_chunks content n, chunk ≠ [] := by
  intro chunk hc
  simp only [create_chunks, List.mem_map] at hc
  obtain ⟨g, hg, rfl⟩ := hc
  have hgne : g ≠ [] := chunkGroups_ne_nil n (pwords content) [] 0 g hg
  obtain ⟨w, t, rfl⟩ := List.exists_cons_of_ne_nil hgne
  have hwmem : w ∈ pwords content := by
    have hmem : w ∈ (chunkGroups n (pwords content) [] 0).flatten :=
      List.mem_flatten.mpr ⟨w :: t, hg, List.mem_cons_self w t⟩
    rwa [chunkGroups_flatten, List.nil_append] at hmem
  have hwne := mem_pwords_ne_nil hwmem
  cases t with
  | nil => simpa [joinWords_singleton] using hwne
  | cons b t' =>
      rw [joinWords_cons_cons]
      intro hc
      rcases List.append_eq_nil.mp hc with ⟨_, hc'⟩
      exact List.cons_ne_nil _ _ hc'

theorem create_chunks_join (content : Str) (n : Nat) :
    joinWords (create_chunks content n) = joinWords (pwords content) := by
  rw [create_chunks,
    joinWords_map_flatten _ (chunkGroups_ne_nil n (pwords content) [] 0),
    chunkGroups_flatten, List.nil_append]

/-! ## The claims -/

/-- C1 is false as stated: ingesting the same `"hello world"` document
twice doubles the stored record count (1 chunk becomes 2), so re-ingestion
is not idempotent and duplicates the record rather than upserting it. -/
theorem C1_counterexample :
    totalChunks (add_document [] (str "a.pdf") (str "A") (str "hello world")).1 = 1 ∧
    totalChunks
        (add_document
          (add_document [] (str "a.pdf") (str "A") (str "hello world")).1
          (str "a.pdf") (str "A") (str "hello world")).1 = 2 := by
  constructor <;> decide

/-- C1, amended: `add_document` is not idempotent — each call appends a
fresh record (there is no chunk id or upsert), so re-ingesting the same
document grows the stored chunk count by the document's chunk count, and in
particular changes the record count whenever the content chunks to a
non-empty list. -/
theorem C1_ingestion_appends (documents : List Doc)
    (filename title content : Str) :
    (add_document documents filename title content).1 =
      documents ++ [⟨filename, title, content, create_chunks content⟩] ∧
    totalChunks (add_document documents filename title content).1 =
      totalChunks documents + (create_chunks content).length ∧
    (create_chunks content ≠ [] →
      totalChunks
          (add_document (add_document documents filename title content).1
            filename title content).1 ≠
        totalChunks (add_document documents filename title content).1) := by
  refine ⟨rfl, ?_, ?_⟩
  · simp [add_document, totalChunks]
  · intro h
    have hlen : 0 < (create_chunks content).length := List.length_pos.mpr h
    simp only [add_document, totalChunks, List.map_append, List.sum_append,
      List.map_cons, List.sum_cons, List.map_nil, List.sum_nil]
    omega

/-- Witness for `C1_ingestion_appends` at a concrete document. -/
theorem C1_witness :
    totalChunks
        (add_document
          (add_document [] (str "a.pdf") (str "A") (str "hello world")).1
          (str "a.pdf") (str "A") (str "hello world")).1 ≠
      totalChunks (add_document [] (str "a.pdf") (str "A") (str "hello world")).1 :=
  (C1_ingestion_appends [] (str "a.pdf") (str "A") (str "hello world")).2.2
    (by decide)

/-- C2: when retrieval finds no matching chunks (in particular on an empty
collection), `query_literature` returns the fixed insufficient-evidence
answer with confidence 0 and an empty source list, and does not invoke the
generation backend — the response is independent of the backend. -/
theorem C2_no_evidence_short_circuit (model : Option GeminiModel)
    (documents : List Doc) (raw_question : Str)
    (hq : strip raw_question ≠ [])
    (hs : search_documents documents (strip raw_question) 5 = []) :
    query_literature model documents raw_question =
      .answerJson
        (str "No relevant information found. Please upload some PDF documents first.")
        [] 0 ∧
    ∀ model', query_literature model' documents raw_question =
      query_literature model documents raw_question := by
  have h : ∀ m : Option GeminiModel,
      query_literature m documents raw_question =
        .answerJson
          (str "No relevant information found. Please upload some PDF documents first.")
          [] 0 := by
    intro m
    simp only [query_literature]
    rw [if_neg hq, hs]
    simp
  exact ⟨h model, fun m' => (h m').trans (h model).symm⟩

/-- Witness for `C2_no_evidence_short_circuit` on the empty collection. -/
theorem C2_witness :
    query_literature none [] (str "anything") =
      .answerJson
        (str "No relevant information found. Please upload some PDF documents first.")
        [] 0 :=
  (C2_no_evidence_short_circuit none [] (str "anything") (by decide)
    (by decide)).1

/-- C9: retrieval is deterministic — two runs of `search_documents` with
identical query, identical collection state and identical `top_k` return
identical ordered result lists, tie-breaks included (the embedded search is
a pure function of these three inputs and nothing else). -/
theorem C9_retrieval_deterministic (documents documents' : List Doc)
    (query query' : Str) (top_k top_k' : Nat)
    (hd : documents = documents') (hq : query = query') (hk : top_k = top_k') :
    search_documents documents query top_k =
      search_documents documents' query' top_k' := by
  rw [hd, hq, hk]

/-- Witness for `C9_retrieval_deterministic` on a concrete collection. -/
theorem C9_witness :
    search_documents docsC7 (str "x") 3 = search_documents docsC7 (str "x") 3 :=
  C9_retrieval_deterministic docsC7 docsC7 (str "x") (str "x") 3 3 rfl rfl rfl

/-- C8: searching an empty collection returns `[]`; when no chunk shares a
word with the query (no candidate passes the positive-overlap similarity
floor) the search returns `[]` rather than an error; and the result length
is `min top_k (number of candidates)` — all available results when `top_k`
exceeds them, never more than `top_k`, with no padding. -/
theorem C8_search_edge_cases :
    (∀ (query : Str) (top_k : Nat), search_documents [] query top_k = []) ∧
    (∀ (documents : List Doc) (query : Str) (top_k : Nat),
      (∀ doc ∈ documents, ∀ chunk ∈ doc.chunks,
        (wordSet query ∩ wordSet chunk).card = 0) →
      search_documents documents query top_k = []) ∧
    (∀ (documents : List Doc) (query : Str) (top_k : Nat),
      (search_documents documents query top_k).length =
        min top_k (candidates documents query).length) := by
  refine ⟨?_, ?_, ?_⟩
  · intro query top_k
    rw [search_documents, show candidates [] query = [] from rfl]
    exact List.take_nil
  · intro documents query top_k h
    have hc : candidates documents query = [] := by
      rw [List.eq_nil_iff_forall_not_mem]
      intro r hr
      simp only [candidates, List.mem_flatMap, List.mem_filterMap] at hr
      obtain ⟨doc, hdoc, chunk, hchunk, hr⟩ := hr
      rw [h doc hdoc chunk hchunk] at hr
      simp at hr
    rw [search_documents, hc]
    exact List.take_nil
  · intro documents query top_k
    rw [search_documents, List.length_take, length_sortDesc]

/-- Witness for `C8_search_edge_cases` at concrete collections: an empty
collection, a collection with no word in common with the query, and a
two-candidate collection truncated to `top_k = 1`. -/
theorem C8_witness :
    search_documents [] (str "anything") 5 = [] ∧
    search_documents docs1 (str "zzz") 5 = [] ∧
    (search_documents docsC7 (str "x") 1).length =
      min 1 (candidates docsC7 (str "x")).length :=
  ⟨C8_search_edge_cases.1 (str "anything") 5,
   C8_search_edge_cases.2.1 docs1 (str "zzz") 5 (by decide),
   C8_search_edge_cases.2.2 docsC7 (str "x") 1⟩

/-- C5: every Retrieval Result returned by `search_documents` has a
similarity score `s` with `0 ≤ s ≤ 1` (the Jaccard overlap of two word
sets, only emitted when the overlap is positive). -/
theorem C5_similarity_normalized (documents : List Doc) (query : Str)
    (top_k : Nat) (r : SearchResult)
    (h : r ∈ search_documents documents query top_k) :
    0 ≤ r.similarity ∧ r.similarity ≤ 1 :=
  ⟨le_of_lt (mem_search_similarity h).1, (mem_search_similarity h).2⟩

unseal Rat.mul Rat.inv in
/-- Witness for `C5_similarity_normalized` at a concrete result. -/
theorem C5_witness :
    0 ≤ (⟨str "A", str "hello world", 1/2⟩ : SearchResult).similarity ∧
    (⟨str "A", str "hello world", 1/2⟩ : SearchResult).similarity ≤ 1 :=
  C5_similarity_normalized docs1 (str "hello") 3
    ⟨str "A", str "hello world", 1/2⟩ (by decide)

/-- C10: chunking partitions the input's whitespace-separated words
exactly: the chunk word-groups flatten back to the word list (no word
dropped, duplicated or reordered), no returned chunk is empty, and joining
the returned chunks with single spaces equals the space-joined word list of
the input (the whitespace-normalised input). -/
theorem C10_chunking_partitions_words (content : Str) (chunk_size : Nat) :
    (chunkGroups chunk_size (pwords content) [] 0).flatten = pwords content ∧
    (∀ chunk ∈ create_chunks content chunk_size, chunk ≠ []) ∧
    joinWords (create_chunks content chunk_size) = joinWords (pwords content) := by
  refine ⟨?_, create_chunks_ne_nil content chunk_size,
    create_chunks_join content chunk_size⟩
  rw [chunkGroups_flatten, List.nil_append]

/-- Witness for `C10_chunking_partitions_words` at a concrete input. -/
theorem C10_witness :
    (chunkGroups 3 (pwords (str "aaaa bb")) [] 0).flatten = pwords (str "aaaa bb") ∧
    str "aaaa" ≠ ([] : Str) ∧
    joinWords (create_chunks (str "aaaa bb") 3) = joinWords (pwords (str "aaaa bb")) :=
  ⟨(C10_chunking_partitions_words (str "aaaa bb") 3).1,
   (C10_chunking_partitions_words (str "aaaa bb") 3).2.1 (str "aaaa") (by decide),
   (C10_chunking_partitions_words (str "aaaa bb") 3).2.2⟩

/-- C4 is false as stated: with target size 3, the input `"aaaa bb"`
produces the chunk `"aaaa"` of length 4 > 3 (the loop appends the word that
crosses the target before flushing, so a single word longer than the target
exceeds the bound), and the consecutive chunks `"aaaa"` and `"bb"` share no
text at all — there is no fractional overlap between consecutive chunks. -/
theorem C4_counterexample :
    create_chunks (str "aaaa bb") 3 = [str "aaaa", str "bb"] ∧
    ¬ (str "aaaa").length ≤ 3 ∧
    wordSet (str "aaaa") ∩ wordSet (str "bb") = ∅ := by
  refine ⟨by decide, by decide, by decide⟩

/-- C4, amended: every chunk's length is bounded by `chunk_size - 1` plus
the length of the longest word of the input (the flush happens only after
the word that crosses the target has been appended, and words are never
split); consecutive chunks share zero overlap — the chunk word-groups
partition the input's words; the code has no section kinds (all text is one
implicit section, so trivially no chunk spans two). -/
theorem C4_chunk_bounds (content : Str) (chunk_size : Nat) :
    (∀ chunk ∈ create_chunks content chunk_size,
      chunk.length ≤ (chunk_size - 1) + maxWordLen (pwords content)) ∧
    (chunkGroups chunk_size (pwords content) [] 0).flatten = pwords content :=
  ⟨create_chunks_length_le content chunk_size,
   by rw [chunkGroups_flatten, List.nil_append]⟩

/-- Witness for `C4_chunk_bounds` at a concrete chunk. -/
theorem C4_witness :
    (str "aaaa").length ≤ (3 - 1) + maxWordLen (pwords (str "aaaa bb")) ∧
    (chunkGroups 3 (pwords (str "aaaa bb")) [] 0).flatten = pwords (str "aaaa bb") :=
  ⟨(C4_chunk_bounds (str "aaaa bb") 3).1 (str "aaaa") (by decide),
   (C4_chunk_bounds (str "aaaa bb") 3).2⟩

/-- C6: for a non-empty retrieved evidence set the `/query` confidence
equals `min(mean evidence similarity × 1.5, 1)` — the mean of the evidence
similarity scores scaled by the configured factor and clamped from above at
1 — lies in `[0,1]`, and is a function of the evidence set only: it does
not depend on the generation backend or its text. -/
theorem C6_confidence_from_evidence (model : Option GeminiModel)
    (documents : List Doc) (raw_question : Str)
    (hq : strip raw_question ≠ [])
    (hs : search_documents documents (strip raw_question) 5 ≠ []) :
    (query_literature model documents raw_question).confidenceOf =
      some (confidence_calc (search_documents documents (strip raw_question) 5)) ∧
    0 ≤ confidence_calc (search_documents documents (strip raw_question) 5) ∧
    confidence_calc (search_documents documents (strip raw_question) 5) ≤ 1 ∧
    (∀ model', (query_literature model' documents raw_question).confidenceOf =
      (query_literature model documents raw_question).confidenceOf) := by
  have hconf : ∀ m : Option GeminiModel,
      (query_literature m documents raw_question).confidenceOf =
        some (confidence_calc (search_documents documents (strip raw_question) 5)) := by
    intro m
    simp only [query_literature]
    rw [if_neg hq, if_neg hs]
    rfl
  have h0 : 0 ≤ confidence_calc (search_documents documents (strip raw_question) 5) := by
    unfold confidence_calc
    refine le_min (mul_nonneg (div_nonneg ?_ ?_) (by norm_num)) (by norm_num)
    · apply List.sum_nonneg
      intro x hx
      obtain ⟨r, hr, rfl⟩ := List.mem_map.mp hx
      exact le_of_lt (mem_search_similarity hr).1
    · positivity
  refine ⟨hconf model, h0, min_le_right _ _,
    fun m' => (hconf m').trans (hconf model).symm⟩

unseal Rat.mul Rat.inv Rat.add in
/-- Witness for `C6_confidence_from_evidence` at a concrete collection. -/
theorem C6_witness :
    (query_literature none docs1 (str "hello")).confidenceOf =
      some (confidence_calc (search_documents docs1 (strip (str "hello")) 5)) ∧
    0 ≤ confidence_calc (search_documents docs1 (strip (str "hello")) 5) ∧
    confidence_calc (search_documents docs1 (strip (str "hello")) 5) ≤ 1 :=
  ⟨(C6_confidence_from_evidence none docs1 (str "hello") (by decide) (by decide)).1,
   (C6_confidence_from_evidence none docs1 (str "hello") (by decide) (by decide)).2.1,
   (C6_confidence_from_evidence none docs1 (str "hello") (by decide) (by decide)).2.2.1⟩

unseal Rat.mul Rat.inv Rat.add in
/-- C3 is false as stated: with the one-document collection `docs1` and the
query `"hello"`, a generation backend that raises `"boom"` is caught and
the answer field carries the explanatory failure message — but the
response's confidence is `3/4`, not `0`. -/
theorem C3_counterexample :
    (query_literature (some (failingModel (str "boom"))) docs1 (str "hello")).answerOf =
      some (str "Error generating answer: boom") ∧
    (query_literature (some (failingModel (str "boom"))) docs1 (str "hello")).confidenceOf =
      some (3/4) ∧
    (3/4 : ℚ) ≠ 0 := by
  refine ⟨by decide, by decide, by decide⟩

/-- C3, amended: a generation-backend failure is always caught and surfaced
as a well-formed response whose answer field is the explanatory message
`"Error generating answer: " + str(e)` (no uncaught fault reaches the
caller), but its confidence is not 0: it is the evidence-only
`min(mean similarity × 1.5, 1)`, strictly positive whenever evidence was
retrieved. -/
theorem C3_generation_failure_caught (documents : List Doc)
    (raw_question e : Str)
    (hq : strip raw_question ≠ [])
    (hs : search_documents documents (strip raw_question) 5 ≠ []) :
    (query_literature (some (failingModel e)) documents raw_question).answerOf =
      some (str "Error generating answer: " ++ e) ∧
    (query_literature (some (failingModel e)) documents raw_question).confidenceOf =
      some (confidence_calc (search_documents documents (strip raw_question) 5)) ∧
    0 < confidence_calc (search_documents documents (strip raw_question) 5) := by
  refine ⟨?_, ?_, ?_⟩
  · simp only [query_literature]
    rw [if_neg hq, if_neg hs]
    rfl
  · simp only [query_literature]
    rw [if_neg hq, if_neg hs]
    rfl
  · unfold confidence_calc
    refine lt_min (mul_pos (div_pos ?_ ?_) (by norm_num)) (by norm_num)
    · apply List.sum_pos
      · intro x hx
        obtain ⟨r, hr, rfl⟩ := List.mem_map.mp hx
        exact (mem_search_similarity hr).1
      · simpa using hs
    · have hl : 0 < (search_documents documents (strip raw_question) 5).length :=
        List.length_pos.mpr hs
      exact_mod_cast hl

unseal Rat.mul Rat.inv Rat.add in
/-- Witness for `C3_generation_failure_caught` at a concrete collection. -/
theorem C3_witness :
    (query_literature (some (failingModel (str "boom"))) docs1 (str "hello")).answerOf =
      some (str "Error generating answer: " ++ str "boom") ∧
    0 < confidence_calc (search_documents docs1 (strip (str "hello")) 5) :=
  ⟨(C3_generation_failure_caught docs1 (str "hello") (str "boom")
      (by decide) (by decide)).1,
   (C3_generation_failure_caught docs1 (str "hello") (str "boom")
      (by decide) (by decide)).2.2⟩

unseal Rat.mul Rat.inv in
/-- C7 is false as stated: against `docsC7` — document `B` inserted before
document `A`, each contributing a single chunk (position 0) — the query
`"x"` yields two results tied at similarity `1/2`, and the search returns
`B` before `A`: the tie is broken by candidate enumeration (insertion)
order, not by the ascending document-id order the claim requires once the
equal chunk positions make its first tie-break neutral. -/
theorem C7_counterexample :
    search_documents docsC7 (str "x") 3 =
      [⟨str "B", str "x p", 1/2⟩, ⟨str "A", str "x q", 1/2⟩] ∧
    ¬ claimedTieOrder (search_documents docsC7 (str "x") 3) := by
  refine ⟨by decide, ?_⟩
  unfold claimedTieOrder
  decide

/-- C7, amended: the list returned by `search_documents` is ordered by
non-increasing similarity score, and on exact score ties results keep the
candidate enumeration order — document insertion order, then chunk position
within a document — because the sort is stable: filtering the sorted
candidate list to any fixed similarity value yields exactly the filtered
unsorted candidate list, in its original order. -/
theorem C7_sorted_stable (documents : List Doc) (query : Str) (top_k : Nat) :
    (search_documents documents query top_k).Pairwise
      (fun a b => b.similarity ≤ a.similarity) ∧
    ∀ q : ℚ,
      (sortDesc (candidates documents query)).filter
          (fun r => decide (r.similarity = q)) =
        (candidates documents query).filter
          (fun r => decide (r.similarity = q)) := by
  constructor
  · exact List.Pairwise.sublist (List.take_sublist _ _) (pairwise_sortDesc _)
  · intro q
    exact filter_sortDesc _ q
